import Mathlib

/-!
Verification development for the scoresdb ingestion pipeline
(src/app/parser.py together with the ORM schema src/app/models.py).

The Python source is shallowly embedded below: pure helper functions become
Lean functions over String / Int / Rat; pandas dataframes become explicit
column lists; the SQLAlchemy session becomes an explicit record of a
committed database state and a current (pending) database state; Python
exceptions become an explicit error type threaded through Except or an
Option PyErr component.
-/

namespace ScoresDB

/-- Python exceptions that the embedded code can raise.  Each constructor
carries the message text used where it matters to a statement. -/
inductive PyErr where
  | valueError (msg : String)
  | indexError (msg : String)
  | attributeError (msg : String)
  | multipleResultsFound (msg : String)
deriving DecidableEq, Repr

deriving instance DecidableEq for Except

/-! ## Python string primitives

Models of the str methods the parser uses: strip, lower, upper, title,
split, rsplit(" ", 1)[0], replace, join and os.path.splitext.  All are
restricted to the ASCII behaviour, which is all the pipeline's inputs
exercise.  They are written over List Char so that every definition
reduces inside the kernel. -/

/-- Rebuild a string from its character list. -/
def chStr (cs : List Char) : String := String.mk cs

/-- The whitespace characters Python str.strip removes and the regex
class matches for ASCII text. -/
def isPySpace (c : Char) : Bool :=
  c = ' ' ∨ c = '\t' ∨ c = '\n' ∨ c = '\r' ∨ c = '\x0b' ∨ c = '\x0c'

/-- Trim isPySpace characters from both ends of a character list. -/
def trimChars (cs : List Char) : List Char :=
  ((cs.dropWhile isPySpace).reverse.dropWhile isPySpace).reverse

/-- Model of Python str.strip with no arguments (trim surrounding
whitespace). -/
def pyStrip (s : String) : String := chStr (trimChars s.data)

/-- Model of Python str.lower restricted to ASCII. -/
def pyLower (s : String) : String := chStr (s.data.map Char.toLower)

/-- Model of Python str.upper restricted to ASCII. -/
def pyUpper (s : String) : String := chStr (s.data.map Char.toUpper)

/-- Helper for splitOnChar, accumulating the current piece reversed. -/
def splitOnCharAux (sep : Char) : List Char → List Char → List (List Char)
  | [], acc => [acc.reverse]
  | c :: rest, acc =>
    if c = sep then acc.reverse :: splitOnCharAux sep rest []
    else splitOnCharAux sep rest (c :: acc)

/-- Model of Python s.split(sep) for a one-character separator: the empty
string splits to a single empty piece, and adjacent separators produce
empty pieces. -/
def splitOnChar (sep : Char) (s : String) : List String :=
  (splitOnCharAux sep s.data []).map chStr

/-- Model of Python sep.join(pieces). -/
def joinWith (sep : String) : List String → String
  | [] => ""
  | [x] => x
  | x :: y :: rest => x ++ sep ++ joinWith sep (y :: rest)

/-- Model of Python s.replace(c, r) for a one-character pattern. -/
def replaceChar (c : Char) (r : String) (s : String) : String :=
  chStr ((s.data.map (fun x => if x = c then r.data else [x])).flatten)

/-- Helper for pyTitle: the Boolean records whether the previous character
was alphabetic (for ASCII, Python's notion of a cased character). -/
def pyTitleAux : Bool → List Char → List Char
  | _, [] => []
  | prevAlpha, c :: rest =>
    let c' := if c.isAlpha then (if prevAlpha then c.toLower else c.toUpper) else c
    c' :: pyTitleAux c.isAlpha rest

/-- Model of Python str.title restricted to ASCII: a letter is uppercased
when the preceding character is not a letter, lowercased otherwise. -/
def pyTitle (s : String) : String := String.mk (pyTitleAux false s.data)

/-- Model of Python s.rsplit(" ", 1)[0]: everything before the last space,
or the whole string when it has no space. -/
def rsplitFirst (s : String) : String :=
  let parts := splitOnChar ' ' s
  if parts.length ≤ 1 then s else joinWith " " parts.dropLast

/-- Model of os.path.splitext(fn)[0]: drop the extension starting at the
last dot, unless every character before that dot is itself a dot. -/
def splitextBase (s : String) : String :=
  let cs := s.data
  match (cs.reverse.findIdx? (· = '.')) with
  | none => s
  | some ridx =>
    let idx := cs.length - 1 - ridx
    if (cs.take idx).all (· = '.') then s else String.mk (cs.take idx)

/-! ## Python numeric parsing

int(...) and float(...) on strings.  float is modelled over Rat; the
pipeline only ever feeds it plain decimal literals, so the exponent,
infinity and nan forms (never produced by the score sheets) are omitted. -/

/-- Numeric value of a list of decimal digit characters. -/
def digitsToNat (ds : List Char) : Nat :=
  ds.foldl (fun a c => a * 10 + (c.toNat - 48)) 0

/-- Model of Python int(s): surrounding whitespace allowed, optional sign,
then at least one decimal digit. -/
def pyInt (s : String) : Except PyErr Int :=
  let t := (pyStrip s).data
  let (neg, ds) :=
    match t with
    | '-' :: rest => (true, rest)
    | '+' :: rest => (false, rest)
    | rest => (false, rest)
  if ds ≠ [] ∧ ds.all Char.isDigit then
    .ok (if neg then -(digitsToNat ds : Int) else (digitsToNat ds : Int))
  else
    .error (.valueError ("invalid literal for int() with base 10: " ++ s))

/-- Model of Python float(s) for plain decimal literals, as an exact
rational: optional sign, digits with an optional dot, at least one digit
overall. -/
def pyFloat (s : String) : Except PyErr Rat :=
  let t := (pyStrip s).data
  let (neg, ds) :=
    match t with
    | '-' :: rest => (true, rest)
    | '+' :: rest => (false, rest)
    | rest => (false, rest)
  let intPart := ds.takeWhile Char.isDigit
  let rest := ds.drop intPart.length
  let bad : Except PyErr Rat :=
    .error (.valueError ("could not convert string to float: " ++ s))
  match rest with
  | [] =>
    if intPart = [] then bad
    else
      let n : Int := digitsToNat intPart
      .ok (mkRat (if neg then -n else n) 1)
  | '.' :: fracRest =>
    let fracPart := fracRest.takeWhile Char.isDigit
    if fracRest.drop fracPart.length ≠ [] then bad
    else if intPart = [] ∧ fracPart = [] then bad
    else
      let num : Int := (digitsToNat intPart) * 10 ^ fracPart.length + digitsToNat fracPart
      .ok (mkRat (if neg then -num else num) (10 ^ fracPart.length))
  | _ => bad

/-! ## Python dates

datetime.date with its constructor validation and comparison order. -/

/-- A calendar date as Python's datetime.date stores it. -/
structure PyDate where
  year : Int
  month : Nat
  day : Nat
deriving DecidableEq, Repr

/-- Gregorian leap-year rule, as datetime uses. -/
def isLeap (y : Int) : Bool := y % 4 == 0 && (y % 100 != 0 || y % 400 == 0)

/-- Days in a month, as datetime validates them. -/
def daysInMonth (y : Int) (m : Nat) : Nat :=
  if m = 2 then (if isLeap y then 29 else 28)
  else if m = 4 ∨ m = 6 ∨ m = 9 ∨ m = 11 then 30
  else 31

/-- Model of the datetime.date constructor: year in 1..9999, month in
1..12, day within the month, else ValueError. -/
def mkDate (y mo d : Int) : Except PyErr PyDate :=
  if 1 ≤ y ∧ y ≤ 9999 ∧ 1 ≤ mo ∧ mo ≤ 12 ∧ 1 ≤ d ∧ d ≤ (daysInMonth y mo.toNat : Int) then
    .ok ⟨y, mo.toNat, d.toNat⟩
  else
    .error (.valueError "invalid date components")

/-- Python date comparison is lexicographic on (year, month, day). -/
def PyDate.ltb (a b : PyDate) : Bool :=
  a.year < b.year ∨ (a.year = b.year ∧ (a.month < b.month ∨ (a.month = b.month ∧ a.day < b.day)))

/-! ## Filename identity parser (parser.py lines 88-141) -/

/-- The recognized weekday tokens, parser.py line 88. -/
def WEEKDAYS : List String := ["saturday", "sunday", "prelims", "semifinals", "finals"]

/-- The dictionary parse_filename returns. -/
structure FilenameInfo where
  show_date : PyDate
  hostid : String
  weekday : String
  city : String
  state : String
  show_name : String
deriving DecidableEq, Repr

/-- Tokens of a filename after stripping the extension, split on
underscores; parse_filename's base.split of line 103. -/
def filenameParts (fn : String) : List String := splitOnChar '_' (splitextBase fn)

/-- The predicate selecting a weekday token, parser.py line 112. -/
def isWeekdayToken (p : String) : Bool := WEEKDAYS.contains (pyLower p)

/-- The date construction of parse_filename's lines 108-109: int() on
the first three tokens in order, then the date constructor. -/
def dateFromTokens (parts : List String) : Except PyErr PyDate :=
  match pyInt (parts.getD 0 ""), pyInt (parts.getD 1 ""), pyInt (parts.getD 2 "") with
  | .ok y, .ok mo, .ok da => mkDate y mo da
  | .error e, _, _ => .error e
  | .ok _, .error e, _ => .error e
  | .ok _, .ok _, .error e => .error e

/-- Embedding of parse_filename, parser.py lines 90-141.  Raised Python
exceptions (the two explicit ValueErrors, plus those escaping int() and
the date constructor) become the error branch. -/
def parse_filename (fn : String) : Except PyErr FilenameInfo :=
  let parts := filenameParts fn
  if parts.length < 6 then
    .error (.valueError ("Filename too short: " ++ fn))
  else
    match dateFromTokens parts with
    | .error e => .error e
    | .ok show_date =>
    match parts.findIdx? isWeekdayToken with
    | none => .error (.valueError ("No weekday in filename: " ++ fn))
    | some wdIdx =>
      let hostidParts := (parts.drop 3).take (wdIdx - 3)
      let hostid :=
        if hostidParts ≠ [] ∧ pyLower (hostidParts.getLastD "") = "hs" then
          joinWith "_" hostidParts
        else
          joinWith "_" (hostidParts ++ ["hs"])
      let weekday := pyTitle (parts.getD wdIdx "")
      let cityParts := (parts.drop (wdIdx + 1)).dropLast
      let city := joinWith " " (cityParts.map pyTitle)
      let state := pyUpper (parts.getLastD "")
      let show_name := pyTitle (replaceChar '_' " " hostid) ++ " " ++ weekday
      .ok ⟨show_date, hostid, weekday, city, state, show_name⟩

/-! ## Classification/block splitter (parser.py lines 26-47 and 55-59)

parse_class_block (line 39) searches with CLASS_RE (lines 55-59), not
with the CLASS_BLOCK_RE of line 26.  CLASS_RE is embedded as a direct
matcher for its concrete pattern; its single capturing group is what the
groups list of a match records, next to the whole match at index 0. -/

/-- The pattern text of CLASS_RE, parser.py lines 55-59 (the two adjacent
string literals concatenated). -/
def CLASS_RE_pattern : String :=
  "(Percussion (?:Scholastic|Independent) [A-Za-z ]+)(?:\\s*[–-]\\s*Block\\s*\\d+)?"

/-- Count the capturing groups of a regex pattern: an opening parenthesis
not followed by a question mark.  The pattern above contains no escaped
parentheses or character-class parentheses, so this simple count is the
group count Python's re module reports. -/
def countCapturingGroups : List Char → Nat
  | [] => 0
  | ['('] => 1
  | '(' :: c :: rest => (if c = '?' then 0 else 1) + countCapturingGroups (c :: rest)
  | _ :: rest => countCapturingGroups rest

/-- Case-insensitive literal match: consume pat from the front of s and
return the remainder, or none. -/
def ciEat : List Char → List Char → Option (List Char)
  | [], s => some s
  | _ :: _, [] => none
  | p :: ps, c :: cs => if c.toLower = p.toLower then ciEat ps cs else none

/-- The regex character class of CLASS_RE's division run: ASCII letters
and the space. -/
def isAlphaSp (c : Char) : Bool :=
  ('A' ≤ c ∧ c ≤ 'Z') ∨ ('a' ≤ c ∧ c ≤ 'z') ∨ c = ' '

/-- Match CLASS_RE's optional block suffix (non-capturing group
backslash-s-star, en-dash or hyphen, backslash-s-star, Block,
backslash-s-star, digits) at the front of s, returning the remainder. -/
def blockEat (s : List Char) : Option (List Char) :=
  match s.dropWhile isPySpace with
  | [] => none
  | c :: cs =>
    if c = '–' ∨ c = '-' then
      match ciEat "block".data (cs.dropWhile isPySpace) with
      | none => none
      | some d =>
        let e := d.dropWhile isPySpace
        let digs := e.takeWhile Char.isDigit
        if digs = [] then none else some (e.drop digs.length)
    else none

/-- Match CLASS_RE at the front of s; on success return the length of the
capturing group's text and the length of the whole match.  The division
run is maximal (greedy plus) and the optional block suffix is taken when
it matches there, as the regex engine does. -/
def matchClassAt (s : List Char) : Option (Nat × Nat) :=
  match ciEat "percussion ".data s with
  | none => none
  | some r1 =>
    match (ciEat "scholastic".data r1).orElse (fun _ => ciEat "independent".data r1) with
    | none => none
    | some r2 =>
      match ciEat " ".data r2 with
      | none => none
      | some r3 =>
        let run := r3.takeWhile isAlphaSp
        if run = [] then none
        else
          let rest := r3.drop run.length
          let g1len := s.length - rest.length
          let total :=
            match blockEat rest with
            | some rest2 => s.length - rest2.length
            | none => g1len
          some (g1len, total)

/-- Leftmost search for CLASS_RE: try each start offset in order,
returning (start index, group-1 length, whole-match length). -/
def classSearchAux : Nat → List Char → Option (Nat × Nat × Nat)
  | _, [] => none
  | i, c :: rest =>
    match matchClassAt (c :: rest) with
    | some (g, t) => some (i, g, t)
    | none => classSearchAux (i + 1) rest

/-- A Python re match object, reduced to what parse_class_block touches:
the list of group texts, index 0 being the whole match. -/
structure ReMatch where
  groups : List (Option String)
deriving DecidableEq, Repr

/-- Model of match.group(i): IndexError when i exceeds the number of
groups the pattern defines. -/
def ReMatch.group (m : ReMatch) (i : Nat) : Except PyErr (Option String) :=
  match m.groups.get? i with
  | some g => .ok g
  | none => .error (.indexError "no such group")

/-- Model of CLASS_RE.search(s).  A match carries exactly one capturing
group, CLASS_RE having one group as countCapturingGroups confirms. -/
def classReSearch (s : String) : Option ReMatch :=
  (classSearchAux 0 s.data).map (fun r =>
    let whole := chStr ((s.data.drop r.1).take r.2.2)
    let g1 := chStr ((s.data.drop r.1).take r.2.1)
    ⟨[some whole, some g1]⟩)

/-- Embedding of parse_class_block, parser.py lines 29-47. -/
def parse_class_block (text : String) : Except PyErr (Option String × Option Int) :=
  if text = "" then .ok (none, none)
  else
    match classReSearch (pyStrip text) with
    | none => .ok (none, none)
    | some m => do
      let g1 ← m.group 1
      let classification ←
        match g1 with
        | some s => Except.ok (pyStrip s)
        | none => Except.error (.attributeError "NoneType object has no attribute strip")
      let blockStr ← m.group 2
      let block ←
        match blockStr with
        | some bs => if bs = "" then Except.ok none else (pyInt bs).map some
        | none => Except.ok (none : Option Int)
      .ok (some classification, block)

/-! ## Table normalizer (parser.py lines 155-191)

A raw camelot table is a rectangular grid of optional text cells (a
missing cell stands for NaN; fillna("") turns it into the empty string).
clean_table merges the first two rows into column names, deduplicates
them with the counts dictionary, drops the header rows and renames the
first two columns by position. -/

/-- A raw table grid: rows of optional text cells. -/
abbrev RawGrid := List (List (Option String))

/-- The text of a header cell after fillna("").astype(str). -/
def cellStr : Option String → String
  | none => ""
  | some s => s

/-- A cleaned table: flat column names plus the data rows. -/
structure CTable where
  cols : List String
  rows : List (List (Option String))
deriving DecidableEq, Repr

/-- Replace an empty merged name by the BLANK label, parser.py lines
171-172. -/
def blankify (s : String) : String := if s = "" then "BLANK" else s

/-- Lookup in the counts dictionary, modelled as an association list in
insertion order. -/
def lookupCount : List (String × Nat) → String → Option Nat
  | [], _ => none
  | (k, v) :: rest, n => if k = n then some v else lookupCount rest n

/-- Write-through update of the counts dictionary. -/
def setCount : List (String × Nat) → String → Nat → List (String × Nat)
  | [], n, v => [(n, v)]
  | (k, w) :: rest, n, v => if k = n then (n, v) :: rest else (k, w) :: setCount rest n v

/-- One iteration of the dedupe loop of parser.py lines 170-178: a fresh
name is recorded with count 0 and kept bare; a repeated name increments
its count and gains the count as suffix. -/
def dedupeStep (st : List String × List (String × Nat)) (name : String) :
    List String × List (String × Nat) :=
  match st with
  | (acc, counts) =>
    let n := blankify name
    match lookupCount counts n with
    | some k => (acc ++ [n ++ "_" ++ toString (k + 1)], setCount counts n (k + 1))
    | none => (acc ++ [n], setCount counts n 0)

/-- The dedupe loop over all merged names. -/
def dedupeNames (names : List String) : List String :=
  (names.foldl dedupeStep ([], [])).1

/-- The merged header names of parser.py lines 163-165: concatenate the
two header cells with a space and strip the result. -/
def mergedNames (r0 r1 : List (Option String)) : List String :=
  (r0.zip r1).map (fun p => pyStrip (cellStr p.1 ++ " " ++ cellStr p.2))

/-- Embedding of clean_table, parser.py lines 155-191.  Fewer than two
rows fails the iloc header access; fewer than two columns fails the
positional rename of lines 187-188. -/
def clean_table (g : RawGrid) : Except PyErr CTable :=
  match g with
  | r0 :: r1 :: rest =>
    match dedupeNames (mergedNames r0 r1) with
    | _ :: _ :: cs => .ok ⟨"Group" :: "Home City" :: cs, rest⟩
    | _ => .error (.indexError "list assignment index out of range")
  | _ => .error (.indexError "single positional indexer is out-of-bounds")

/-- Independent closed form for the deduplicated name at index i: the
blankified merged name, suffixed with the number of earlier indices
carrying the same blankified name when that number is positive. -/
def specColName (ms : List String) (i : Nat) : String :=
  let b := blankify (ms.getD i "")
  let prior := ((ms.take i).map blankify).count b
  if prior = 0 then b else b ++ "_" ++ toString prior

/-! ## Caption cell splitter (parser.py lines 194-204)

split_caption_cells works on a dataframe; here the dataframe is a list of
named columns, each a list of cells.  A cell is a Python value: after
clean_table the cells are strings (or NaN), and the generated columns
hold floats and ints. -/

/-- A Python cell value as the dataframe can hold it. -/
inductive PyVal where
  | vnone
  | vstr (s : String)
  | vfloat (x : Rat)
  | vint (n : Int)
deriving DecidableEq, Repr

/-- Model of pandas notna on a cell: NaN (here vnone) is the only missing
value. -/
def notna : PyVal → Bool
  | .vnone => false
  | _ => true

/-- The c-or-empty coercion of split_cell's first line: None (and other
falsy values) becomes the empty string, a string is kept; calling split
on a non-falsy non-string would raise AttributeError. -/
def cellSplitText : PyVal → Except PyErr String
  | .vnone => .ok ""
  | .vstr s => .ok s
  | .vfloat x =>
    if x = 0 then .ok "" else .error (.attributeError "float object has no attribute split")
  | .vint n =>
    if n = 0 then .ok "" else .error (.attributeError "int object has no attribute split")

/-- Python list indexing p i with IndexError past the end. -/
def getLine (p : List String) (i : Nat) : Except PyErr String :=
  match p.get? i with
  | some s => .ok s
  | none => .error (.indexError "list index out of range")

/-- Embedding of the split_cell closure of parser.py lines 195-197: split
the cell text on newlines and convert, in evaluation order, line 0, 1
and 2 with float() and line 3 with int(). -/
def split_cell (c : PyVal) : Except PyErr (Rat × Rat × Rat × Int) := do
  let s ← cellSplitText c
  let p := splitOnChar '\n' s
  let s0 ← getLine p 0
  let a ← pyFloat s0
  let s1 ← getLine p 1
  let b ← pyFloat s1
  let s2 ← getLine p 2
  let t ← pyFloat s2
  let s3 ← getLine p 3
  let d ← pyInt s3
  .ok (a, b, t, d)

/-- The recognized composite columns, parser.py line 198. -/
def captionCols : List String := ["Effect - Music", "Effect - Visual", "Music", "Visual", "SubTotal"]

/-- The slug of a caption name, parser.py line 200: lowercase, then
replace spaces with underscores, then delete hyphens. -/
def slugOf (cap : String) : String :=
  replaceChar '-' "" (replaceChar ' ' "_" (pyLower cap))

/-- A dataframe as split_caption_cells manipulates it: named columns of
cells, in column order. -/
structure DF where
  cols : List (String × List PyVal)
deriving DecidableEq, Repr

/-- The column names of a dataframe. -/
def DF.names (df : DF) : List String := df.cols.map Prod.fst

/-- The cells of the column with the given name, when present (first
match, as on a dataframe with unique column labels). -/
def DF.columnVals (df : DF) (n : String) : Option (List PyVal) :=
  (df.cols.find? (fun p => p.1 == n)).map Prod.snd

/-- Model of the dataframe column assignment df n = vs: replace the
column in place when the name exists, else append it on the right. -/
def DF.setCol (df : DF) (n : String) (vs : List PyVal) : DF :=
  if df.cols.any (fun p => p.1 == n) then
    ⟨df.cols.map (fun p => if p.1 == n then (n, vs) else p)⟩
  else ⟨df.cols ++ [(n, vs)]⟩

/-- Model of df.drop(columns = cap). -/
def DF.dropCol (df : DF) (n : String) : DF :=
  ⟨df.cols.filter (fun p => !(p.1 == n))⟩

/-- One iteration of split_caption_cells' loop for a single caption
column: when present, split every cell, append the four derived columns
and drop the composite one.  An empty column makes the four-way unpacking
of the empty zip fail, as in the source. -/
def applyCap (df : DF) (cap : String) : Except PyErr DF :=
  match df.columnVals cap with
  | none => .ok df
  | some col => do
    let vals ← col.mapM split_cell
    if vals.length = 0 then
      .error (.valueError "not enough values to unpack (expected 4, got 0)")
    else
      let slug := slugOf cap
      .ok (((((df.setCol (slug ++ "_comp") (vals.map (fun v => PyVal.vfloat v.1))).setCol
            (slug ++ "_perf") (vals.map (fun v => PyVal.vfloat v.2.1))).setCol
            (slug ++ "_total") (vals.map (fun v => PyVal.vfloat v.2.2.1))).setCol
            (slug ++ "_place") (vals.map (fun v => PyVal.vint v.2.2.2))).dropCol cap)

/-- Embedding of split_caption_cells, parser.py lines 194-204. -/
def split_caption_cells (df : DF) : Except PyErr DF :=
  captionCols.foldlM applyCap df

/-! ## Row validator (parser.py lines 305-311)

The three sequential boolean masks of lines 307, 309 and 311 are
row-wise, so their composition keeps exactly the rows satisfying the
conjunction below.  Only the three columns the masks read matter to a
row's fate. -/

/-- The cells of one data row that the validator reads. -/
structure PerfRow where
  group : PyVal
  home_city : PyVal
  subtotal_total : PyVal
deriving DecidableEq, Repr

/-- The conjunction of the validator's three masks: Group and Home City
not NaN (line 307); the Group text, stripped and lowercased, not the
literal group (line 309; a non-string Group yields NaN there, which
compares unequal and passes); subtotal_total a float strictly above zero
(line 311). -/
def rowKept (r : PerfRow) : Bool :=
  notna r.group && notna r.home_city
  && (match r.group with
      | .vstr s => !(pyLower (pyStrip s) == "group")
      | _ => true)
  && (match r.subtotal_total with
      | .vfloat x => decide (0 < x)
      | _ => false)

/-- The validator over a list of rows: the silent filter. -/
def filterRows (rows : List PerfRow) : List PerfRow := rows.filter rowKept

/-! ## Persistence model (models.py) and the ingest orchestrator
(parser.py lines 209-215, 220-350 and 355-371)

The database is the three tables the reachable part of ingest_pdf
touches.  The session carries the last committed database state and the
current (flushed but uncommitted) state; commit publishes the current
state, rollback discards it.  PDF-extraction collaborators (pdfplumber,
camelot) are black boxes, so a document is given by its file name and
the per-page data they would return. -/

/-- A row of the seasons table. -/
structure SeasonRec where
  id : Nat
  year : Int
deriving DecidableEq, Repr

/-- A row of the hosts table. -/
structure HostRec where
  id : Nat
  name : String
  city : Option String
  state : Option String
deriving DecidableEq, Repr

/-- A row of the shows table. -/
structure ShowRec where
  id : Nat
  season_id : Nat
  name : String
  date : PyDate
  host_id : Nat
  week : Nat
  pdf_name : String
deriving DecidableEq, Repr

/-- The persisted tables the reachable code touches, plus the id
counter the database assigns from. -/
structure DBState where
  seasons : List SeasonRec := []
  hosts : List HostRec := []
  shows : List ShowRec := []
  nextId : Nat := 1
deriving DecidableEq, Repr

/-- The attributes the mapped Show class of models.py lines 38-50
defines: its five columns, its week column, and the season, host and
judge_assignments relationships.  Performance.show (models.py line 100)
is one-directional — no back reference — so performances is absent. -/
def showAttrNames : List String :=
  ["id", "name", "date", "season_id", "host_id", "season", "host", "week", "judge_assignments"]

/-- get_or_create for Season by year, parser.py lines 209-215 and 247. -/
def getOrCreateSeason (st : DBState) (year : Int) : SeasonRec × DBState :=
  match st.seasons.find? (fun s => s.year == year) with
  | some s => (s, st)
  | none =>
    let s : SeasonRec := ⟨st.nextId, year⟩
    (s, { st with seasons := st.seasons ++ [s], nextId := st.nextId + 1 })

/-- get_or_create for HostLocation by exact (name, city, state),
parser.py lines 250-255. -/
def getOrCreateHost (st : DBState) (name : String) (city state : Option String) :
    HostRec × DBState :=
  match st.hosts.find? (fun h => h.name == name && h.city == city && h.state == state) with
  | some h => (h, st)
  | none =>
    let h : HostRec := ⟨st.nextId, name, city, state⟩
    (h, { st with hosts := st.hosts ++ [h], nextId := st.nextId + 1 })

/-- The week computation of parser.py lines 258-263: one more than the
count of shows of the season dated strictly before the given date. -/
def computeWeek (st : DBState) (seasonId : Nat) (d : PyDate) : Nat :=
  (st.shows.filter (fun s => s.season_id == seasonId && PyDate.ltb s.date d)).length + 1

/-- The Show upsert of parser.py lines 266-283: one_or_none by pdf_name
(error when several rows match), update the found row in place, or
insert a fresh one. -/
def upsertShow (st : DBState) (fn name : String) (d : PyDate)
    (seasonId hostId week : Nat) : DBState × Option PyErr :=
  let found := st.shows.filter (fun s => s.pdf_name == fn)
  if 2 ≤ found.length then
    (st, some (.multipleResultsFound "Multiple rows were found when one or none was required"))
  else if found.length = 1 then
    ({ st with shows := st.shows.map (fun t =>
        if t.pdf_name == fn then
          { t with name := name, date := d, season_id := seasonId, host_id := hostId, week := week }
        else t) }, none)
  else
    let s : ShowRec := ⟨st.nextId, seasonId, name, d, hostId, week, fn⟩
    ({ st with shows := st.shows ++ [s], nextId := st.nextId + 1 }, none)

/-- What scan_pdf_header (parser.py lines 61-82) returns for one page:
any subset of the four fields. -/
structure HeaderMeta where
  show_name : Option String := none
  show_date : Option PyDate := none
  location : Option String := none
  classification_text : Option String := none
deriving DecidableEq, Repr

/-- One page of a document as the collaborators expose it: the header
scan result and the raw tables camelot would extract. -/
structure PageData where
  meta : HeaderMeta
  grids : List RawGrid
deriving DecidableEq, Repr

/-- A document: its base file name and its pages. -/
structure Doc where
  fn : String
  pages : List PageData
deriving DecidableEq, Repr

/-- The show identity ingest_pdf resolves in its steps 1 and 2. -/
structure Identity where
  show_name : String
  show_date : PyDate
  city : Option String
  state : Option String
deriving DecidableEq, Repr

/-- Model of location.split(a comma, 1): at most one split. -/
def splitComma1 (s : String) : List String :=
  match splitOnChar ',' s with
  | [] => [s]
  | [x] => [x]
  | x :: y :: rest => [x, joinWith "," (y :: rest)]

/-- Steps 1 and 2 of ingest_pdf, parser.py lines 223-244: scan page 0
(IndexError on an empty document), then either take name and date from
the header — city and state from its location field — or fall back to
parse_filename for whatever is missing, taking city and state from the
filename.  The header-branch hostid of line 239 is a dead store and has
no observable effect. -/
def resolveIdentity (doc : Doc) : Except PyErr Identity := do
  let hdr0 ← match doc.pages.get? 0 with
    | some p => Except.ok p.meta
    | none => Except.error (.indexError "list index out of range")
  match hdr0.show_name, hdr0.show_date with
  | some n, some d =>
    let cs : Option String × Option String :=
      match hdr0.location with
      | some loc =>
        if loc ≠ "" ∧ loc.data.contains ',' then
          let parts := splitComma1 loc
          (some (pyStrip (parts.getD 0 "")), some (pyStrip (parts.getD 1 "")))
        else (none, none)
      | none => (none, none)
    .ok ⟨n, d, cs.1, cs.2⟩
  | n?, d? =>
    let fb ← parse_filename doc.fn
    .ok ⟨n?.getD fb.show_name, d?.getD fb.show_date, some fb.city, some fb.state⟩

/-- Steps 3 to 6 of ingest_pdf, parser.py lines 246-283: upsert Season
and HostLocation, compute the week, and upsert the Show by pdf_name. -/
def showPhase (st : DBState) (fn : String) (ident : Identity) : DBState × Option PyErr :=
  let seasonSt := getOrCreateSeason st ident.show_date.year
  let hostSt := getOrCreateHost seasonSt.2 (rsplitFirst ident.show_name) ident.city ident.state
  let week := computeWeek hostSt.2 seasonSt.1.id ident.show_date
  upsertShow hostSt.2 fn ident.show_name ident.show_date seasonSt.1.id hostSt.1.id week

/-- A SQLAlchemy session: the last committed database state and the
current flushed-but-uncommitted one. -/
structure Sess where
  committed : DBState := {}
  current : DBState := {}
deriving DecidableEq, Repr

/-- session.rollback discards everything since the last commit. -/
def Sess.rollback (s : Sess) : Sess := ⟨s.committed, s.committed⟩

/-- session.commit publishes the current state. -/
def Sess.commitAll (s : Sess) : Sess := ⟨s.current, s.current⟩

/-- Embedding of ingest_pdf, parser.py lines 220-350.  After the Show
upsert, line 286 reads show.performances; the mapped Show class defines
no such attribute (showAttrNames), so the access raises AttributeError
on every run, before any commit.  The code past line 286 — clearing
performances and the per-page row ingestion and final commit of lines
287-350 — is therefore unreachable; the guarded first branch below
stands for it and is never taken. -/
def ingest_pdf (s : Sess) (doc : Doc) : Sess × Option PyErr :=
  match resolveIdentity doc with
  | .error e => (s, some e)
  | .ok ident =>
    match showPhase s.current doc.fn ident with
    | (st', some e) => ({ s with current := st' }, some e)
    | (st', none) =>
      if "performances" ∈ showAttrNames then
        ({ s with current := st' }, some (.valueError "unreachable branch, not modelled"))
      else
        ({ s with current := st' },
         some (.attributeError "Show object has no attribute performances"))

/-- The message text of an exception, as main's print formats it. -/
def PyErr.msg : PyErr → String
  | .valueError m => m
  | .indexError m => m
  | .attributeError m => m
  | .multipleResultsFound m => m

/-- The error line main prints for a failed file, parser.py line 369. -/
def errLine (fn : String) (e : PyErr) : String := "[ERROR] " ++ fn ++ ": " ++ e.msg

/-- Embedding of main's batch loop, parser.py lines 361-369: the docs
list stands for the sorted directory listing restricted to .pdf names;
each document is ingested in turn, a failure is rolled back and logged,
and the loop continues with the next document. -/
def mainLoop : Sess → List String → List Doc → Sess × List String
  | s, log, [] => (s, log)
  | s, log, d :: ds =>
    match ingest_pdf s d with
    | (s', none) => mainLoop s' log ds
    | (s', some e) => mainLoop s'.rollback (log ++ [errLine d.fn e]) ds

/-! ## Renderings of the specification's wording, for comparison

Each definition below follows the words of a spec claim, to be compared
with the definition embedded from the source.  They are deliberately not
used by the source embeddings above. -/

/-- The slug rule as the spec words it: the caption name lower-cased
with spaces and hyphens removed. -/
def slugClaim (cap : String) : String :=
  replaceChar '-' "" (replaceChar ' ' "" (pyLower cap))

/-- The merged-column-name rule as the spec words it: each of the two
header cells trimmed individually, then joined with a single space. -/
def mergedNamesClaim (r0 r1 : List (Option String)) : List String :=
  (r0.zip r1).map (fun p => pyStrip (cellStr p.1) ++ " " ++ pyStrip (cellStr p.2))

/-- A cell that is present and non-empty, as the spec's row-retention
rule words it. -/
def presentNonEmpty : PyVal → Bool
  | .vnone => false
  | .vstr s => !(s == "")
  | _ => true

/-- The row-retention rule as the spec words it: Group and Home City
present and non-empty, Group not the literal header word, and a positive
numeric subtotal total. -/
def rowKeptClaim (r : PerfRow) : Bool :=
  presentNonEmpty r.group && presentNonEmpty r.home_city
  && (match r.group with
      | .vstr s => !(pyLower (pyStrip s) == "group")
      | _ => true)
  && (match r.subtotal_total with
      | .vfloat x => decide (0 < x)
      | _ => false)

/-! ## Concrete inputs used by witnesses and counterexamples -/

/-- A well-formed document whose header scan found nothing, so identity
comes from the filename; its tables are irrelevant to the reachable part
of ingest_pdf. -/
def docArc : Doc := ⟨"2024_09_14_arcadia_hs_saturday_arcadia_ca.pdf", [⟨{}, []⟩]⟩

/-- A dataframe with the Effect - Music composite column holding the
spec's example cell. -/
def dfEffectMusic : DF :=
  ⟨[("Group", [.vstr "A"]), ("Effect - Music", [.vstr "12.5\n11.0\n23.5\n3"])]⟩

/-- A dataframe with the SubTotal composite column holding the spec's
example cell. -/
def dfSubTotal : DF :=
  ⟨[("Group", [.vstr "A"]), ("SubTotal", [.vstr "12.5\n11.0\n23.5\n3"])]⟩

/-- A data row whose Group cell is the empty string (present but empty),
with a positive subtotal. -/
def rowEmptyGroup : PerfRow := ⟨.vstr "", .vstr "Mesa", .vfloat (mkRat 1 1)⟩

/-- A three-column grid whose third merged header has inner whitespace,
exposing where trimming happens. -/
def gridPad : RawGrid :=
  [[some "Team", some "City", some "A "],
   [some "", some "", some "B"],
   [some "x", some "y", some "z"]]

/-! ## Proof-side definitions -/

/-- Whether an embedded Python call returned normally. -/
def isOkB : Except PyErr α → Bool
  | .ok _ => true
  | .error _ => false

/-- The deduplicated name one occurrence receives, given the names
already processed (blankified): bare when fresh, suffixed with the
number of earlier occurrences otherwise. -/
def specRel (prev : List String) (nm : String) : String :=
  let b := blankify nm
  let p := (prev.map blankify).count b
  if p = 0 then b else b ++ "_" ++ toString p

/-- Recursive restatement of the dedupe loop, carrying the processed
prefix instead of the counts dictionary. -/
def dedupeRec (prev : List String) : List String → List String
  | [] => []
  | n :: rest => specRel prev n :: dedupeRec (prev ++ [n]) rest

/-- The counts dictionary agrees with occurrence counting over the
processed prefix: absent for unseen names, occurrences minus one for
seen ones. -/
def countsInv (prev : List String) (cs : List (String × Nat)) : Prop :=
  ∀ n : String, lookupCount cs n =
    if (prev.map blankify).count n = 0 then none
    else some ((prev.map blankify).count n - 1)

/-- The four column names one composite caption generates. -/
def genNames (cap : String) : List String :=
  [slugOf cap ++ "_comp", slugOf cap ++ "_perf", slugOf cap ++ "_total", slugOf cap ++ "_place"]

/-- The four derived columns of one caption are in place with the given
split values, and the composite column is gone. -/
def capState (df : DF) (cap : String) (vals : List (Rat × Rat × Rat × Int)) : Prop :=
  df.columnVals (slugOf cap ++ "_comp") = some (vals.map (fun v => PyVal.vfloat v.1)) ∧
  df.columnVals (slugOf cap ++ "_perf") = some (vals.map (fun v => PyVal.vfloat v.2.1)) ∧
  df.columnVals (slugOf cap ++ "_total") = some (vals.map (fun v => PyVal.vfloat v.2.2.1)) ∧
  df.columnVals (slugOf cap ++ "_place") = some (vals.map (fun v => PyVal.vint v.2.2.2)) ∧
  df.columnVals cap = none

/-! ## Helper lemmas -/

/-- Every run of ingest_pdf ends in an error: identity resolution either
fails, the Show upsert fails, or — on the path where everything else
succeeded — the show.performances access of parser.py line 286 raises
AttributeError because the mapped Show class defines no such attribute. -/
theorem ingest_pdf_always_errors (s : Sess) (d : Doc) :
    (ingest_pdf s d).2.isSome = true := by
  unfold ingest_pdf
  split
  · rfl
  · split
    · rfl
    · split <;> rfl

/-- Updating one key of the counts dictionary changes exactly that
key's lookup. -/
theorem lookupCount_setCount (cs : List (String × Nat)) (n : String) (v : Nat) (m : String) :
    lookupCount (setCount cs n v) m = if m = n then some v else lookupCount cs m := by
  induction cs with
  | nil =>
    by_cases hmn : m = n
    · subst hmn
      simp [setCount, lookupCount]
    · have hnm : ¬n = m := fun hh => hmn hh.symm
      simp [setCount, lookupCount, hmn, hnm]
  | cons c rest ih =>
    rcases c with ⟨k, w⟩
    by_cases hkn : k = n
    · subst hkn
      by_cases hmn : m = k
      · subst hmn
        simp [setCount, lookupCount]
      · have hkm : ¬k = m := fun hh => hmn hh.symm
        simp [setCount, lookupCount, hmn, hkm]
    · by_cases hkm : k = m
      · have hmn : ¬m = n := fun hh => hkn (hkm.trans hh)
        simp [setCount, lookupCount, hkn, hkm, hmn]
      · simp [setCount, lookupCount, hkn, hkm, ih]

/-- The fold of the dedupe loop agrees with the recursive restatement,
given a counts dictionary faithful to the processed prefix. -/
theorem dedupe_foldl (ns : List String) :
    ∀ (prev acc : List String) (cs : List (String × Nat)), countsInv prev cs →
      (ns.foldl dedupeStep (acc, cs)).1 = acc ++ dedupeRec prev ns := by
  induction ns with
  | nil =>
    intro prev acc cs _
    simp [dedupeRec]
  | cons n rest ih =>
    intro prev acc cs hinv
    rw [List.foldl_cons]
    have hl := hinv (blankify n)
    have hcountsucc : ∀ m : String,
        ((prev ++ [n]).map blankify).count m
          = (prev.map blankify).count m + (if blankify n = m then 1 else 0) := by
      intro m
      rw [List.map_append, List.count_append]
      by_cases hbm : blankify n = m
      · simp [hbm]
      · have hmb : ¬m = blankify n := fun hh => hbm hh.symm
        simp [hbm, hmb]
    by_cases hz : (prev.map blankify).count (blankify n) = 0
    · rw [if_pos hz] at hl
      have hstep : dedupeStep (acc, cs) n = (acc ++ [blankify n], setCount cs (blankify n) 0) := by
        simp only [dedupeStep, hl]
      rw [hstep, ih (prev ++ [n]) _ _ ?_]
      · have hspec : specRel prev n = blankify n := by simp [specRel, hz]
        rw [dedupeRec, hspec, List.append_assoc]
        rfl
      · intro m
        rw [lookupCount_setCount, hcountsucc m]
        by_cases hmb : m = blankify n
        · subst hmb
          simp [hz]
        · have hnb : ¬blankify n = m := fun hh => hmb hh.symm
          rw [if_neg hmb, if_neg hnb, Nat.add_zero]
          exact hinv m
    · rw [if_neg hz] at hl
      have hstep : dedupeStep (acc, cs) n
          = (acc ++ [blankify n ++ "_" ++ toString ((prev.map blankify).count (blankify n) - 1 + 1)],
             setCount cs (blankify n) ((prev.map blankify).count (blankify n) - 1 + 1)) := by
        simp only [dedupeStep, hl]
      have hsucc : (prev.map blankify).count (blankify n) - 1 + 1
          = (prev.map blankify).count (blankify n) :=
        Nat.succ_pred_eq_of_pos (Nat.pos_of_ne_zero hz)
      rw [hstep, ih (prev ++ [n]) _ _ ?_]
      · have hspec : specRel prev n
            = blankify n ++ "_" ++ toString ((prev.map blankify).count (blankify n)) := by
          simp [specRel, hz]
        rw [dedupeRec, hspec, ← hsucc, List.append_assoc]
        rfl
      · intro m
        rw [lookupCount_setCount, hcountsucc m]
        by_cases hmb : m = blankify n
        · subst hmb
          simp [hsucc]
        · have hnb : ¬blankify n = m := fun hh => hmb hh.symm
          rw [if_neg hmb, if_neg hnb, Nat.add_zero]
          exact hinv m

/-- The dedupe loop over all names equals the recursive restatement
started from the empty prefix. -/
theorem dedupeNames_eq (ns : List String) : dedupeNames ns = dedupeRec [] ns := by
  have h := dedupe_foldl ns [] [] [] (by intro n; simp [lookupCount])
  simpa [dedupeNames] using h

/-- The recursive dedupe preserves length. -/
theorem dedupeRec_length (ns : List String) :
    ∀ prev, (dedupeRec prev ns).length = ns.length := by
  induction ns with
  | nil => intro prev; rfl
  | cons n rest ih => intro prev; simp [dedupeRec, ih]

/-- The i-th deduplicated name, relative to a carried prefix. -/
theorem dedupeRec_getD (ns : List String) :
    ∀ (prev : List String) (i : Nat), i < ns.length →
      (dedupeRec prev ns).getD i "" = specRel (prev ++ ns.take i) (ns.getD i "") := by
  induction ns with
  | nil =>
    intro prev i h
    exact absurd h (by simp)
  | cons n rest ih =>
    intro prev i h
    cases i with
    | zero => simp [dedupeRec]
    | succ j =>
      have hj : j < rest.length := by simpa using h
      simp only [dedupeRec, List.getD_cons_succ, List.take_succ_cons]
      rw [ih (prev ++ [n]) j hj]
      congr 1
      simp

/-- The i-th name dedupeNames produces is the blankified merged name
with the first-seen duplicate suffix. -/
theorem dedupeNames_getD (ns : List String) (i : Nat) (h : i < ns.length) :
    (dedupeNames ns).getD i "" = specColName ns i := by
  rw [dedupeNames_eq, dedupeRec_getD ns [] i h]
  simp [specRel, specColName]

/-- A Boolean that is not true is false. -/
theorem bool_eq_false {b : Bool} (h : ¬b = true) : b = false := by
  cases b
  · rfl
  · exact absurd rfl h

/-- String concatenation is left-cancellative. -/
theorem string_append_cancel_left (s t u : String) (h : s ++ t = s ++ u) : t = u := by
  have hd : s.data ++ t.data = s.data ++ u.data := by
    have hh := congrArg String.data h
    simpa [String.data_append] using hh
  have hc := List.append_cancel_left hd
  cases t
  cases u
  exact congrArg String.mk (by simpa using hc)

/-- Two suffixes of the same prefix compare unequal when the suffixes
differ, in the Boolean form the dataframe lemmas use. -/
theorem append_suffix_beq_false (s t u : String) (h : t ≠ u) :
    ((s ++ t) == (s ++ u)) = false :=
  beq_eq_false_iff_ne.mpr (fun hh => h (string_append_cancel_left s t u hh))

/-- find? distributes over append via the first list. -/
theorem find?_append_list (l1 l2 : List (String × List PyVal))
    (p : String × List PyVal → Bool) :
    (l1 ++ l2).find? p = ((l1.find? p).orElse (fun _ => l2.find? p)) := by
  induction l1 with
  | nil => rfl
  | cons c rest ih =>
    by_cases hc : p c = true
    · simp [List.find?, hc]
    · have hc' : p c = false := by simpa using hc
      simp [List.find?, hc', ih]

/-- Replacing the matching columns in place, then searching for that
name, finds the replacement. -/
theorem find?_setCol_list (cols : List (String × List PyVal)) (n : String) (vs : List PyVal)
    (hany : cols.any (fun p => p.1 == n) = true) :
    (cols.map (fun p => if p.1 == n then (n, vs) else p)).find? (fun p => p.1 == n)
      = some (n, vs) := by
  induction cols with
  | nil => simp at hany
  | cons c rest ih =>
    simp only [List.map_cons]
    by_cases hc : (c.1 == n) = true
    · rw [if_pos hc, List.find?_cons_of_pos]
      simp
    · have hc' : (c.1 == n) = false := by simpa using hc
      have hrest : rest.any (fun p => p.1 == n) = true := by
        rw [List.any_cons, hc'] at hany
        simpa using hany
      rw [if_neg hc, List.find?_cons_of_neg]
      · exact ih hrest
      · exact hc

/-- Replacing the columns of one name leaves searches for a different
name unchanged. -/
theorem find?_setCol_other_list (cols : List (String × List PyVal)) (n m : String)
    (vs : List PyVal) (h : (n == m) = false) :
    (cols.map (fun p => if p.1 == n then (n, vs) else p)).find? (fun p => p.1 == m)
      = cols.find? (fun p => p.1 == m) := by
  induction cols with
  | nil => rfl
  | cons c rest ih =>
    simp only [List.map_cons]
    by_cases hc : (c.1 == n) = true
    · have hceq : c.1 = n := by simpa using hc
      have hcm : (c.1 == m) = false := by rw [hceq]; exact h
      rw [if_pos hc, List.find?_cons_of_neg]
      · rw [List.find?_cons_of_neg]
        · exact ih
        · simp [hcm]
      · simp [h]
    · have hc' : (c.1 == n) = false := by simpa using hc
      rw [if_neg hc]
      by_cases hm : (c.1 == m) = true
      · rw [List.find?_cons_of_pos, List.find?_cons_of_pos]
        · exact hm
        · exact hm
      · rw [List.find?_cons_of_neg]
        · rw [List.find?_cons_of_neg]
          · exact ih
          · exact hm
        · exact hm

/-- Reading back the column just set. -/
theorem columnVals_setCol_self (df : DF) (n : String) (vs : List PyVal) :
    (df.setCol n vs).columnVals n = some vs := by
  rcases df with ⟨cols⟩
  by_cases hany : (cols.any (fun p => p.1 == n)) = true
  · simp only [DF.setCol, hany, if_true, DF.columnVals, find?_setCol_list cols n vs hany]
    rfl
  · have hany' : cols.any (fun p => p.1 == n) = false := bool_eq_false hany
    simp only [DF.setCol, hany', Bool.false_eq_true, if_false, DF.columnVals,
      find?_append_list]
    have hnone : cols.find? (fun p => p.1 == n) = none := by
      rw [List.find?_eq_none]
      intro x hx hpx
      have hx2 : cols.any (fun p => p.1 == n) = true := List.any_eq_true.mpr ⟨x, hx, hpx⟩
      rw [hany'] at hx2
      exact Bool.false_ne_true hx2
    rw [hnone]
    show Option.map Prod.snd (([(n, vs)] : List (String × List PyVal)).find?
      (fun p => p.1 == n)) = some vs
    rw [List.find?_cons_of_pos]
    · rfl
    · simp

/-- Setting one column leaves every other column's cells unchanged. -/
theorem columnVals_setCol_other (df : DF) (n m : String) (vs : List PyVal)
    (h : (n == m) = false) :
    (df.setCol n vs).columnVals m = df.columnVals m := by
  rcases df with ⟨cols⟩
  by_cases hany : (cols.any (fun p => p.1 == n)) = true
  · simp only [DF.setCol, hany, if_true, DF.columnVals, find?_setCol_other_list cols n m vs h]
  · have hany' : cols.any (fun p => p.1 == n) = false := bool_eq_false hany
    simp only [DF.setCol, hany', Bool.false_eq_true, if_false, DF.columnVals, find?_append_list]
    have hsingle : ([(n, vs)] : List (String × List PyVal)).find? (fun p => p.1 == m) = none := by
      rw [List.find?_cons_of_neg]
      · rfl
      · simp [h]
    rw [hsingle]
    cases cols.find? (fun p => p.1 == m) <;> rfl

/-- Dropping a column removes it. -/
theorem columnVals_dropCol_self (df : DF) (n : String) :
    (df.dropCol n).columnVals n = none := by
  rcases df with ⟨cols⟩
  simp only [DF.dropCol, DF.columnVals]
  have hnone : (cols.filter (fun p => !(p.1 == n))).find? (fun p => p.1 == n) = none := by
    rw [List.find?_eq_none]
    intro x hx
    rw [List.mem_filter] at hx
    simpa using hx.2
  rw [hnone]
  rfl

/-- Dropping one column leaves every other column's cells unchanged. -/
theorem columnVals_dropCol_other (df : DF) (n m : String) (h : (n == m) = false) :
    (df.dropCol n).columnVals m = df.columnVals m := by
  rcases df with ⟨cols⟩
  simp only [DF.dropCol, DF.columnVals]
  congr 1
  induction cols with
  | nil => rfl
  | cons c rest ih =>
    rw [List.filter_cons]
    by_cases hc : (c.1 == n) = true
    · have hceq : c.1 = n := by simpa using hc
      have hcm : (c.1 == m) = false := by rw [hceq]; exact h
      rw [if_neg (by simp [hc]), ih, List.find?_cons_of_neg]
      simp [hcm]
    · have hc' : (c.1 == n) = false := by simpa using hc
      rw [if_pos (by simp [hc'])]
      by_cases hm : (c.1 == m) = true
      · rw [List.find?_cons_of_pos, List.find?_cons_of_pos]
        · exact hm
        · exact hm
      · rw [List.find?_cons_of_neg]
        · rw [List.find?_cons_of_neg]
          · exact ih
          · exact hm
        · exact hm

/-- Inversion of a bind that returned normally. -/
theorem except_bind_ok {α β : Type} (x : Except PyErr α) (f : α → Except PyErr β) (b : β)
    (h : (x >>= f) = .ok b) : ∃ a, x = .ok a ∧ f a = .ok b := by
  cases x with
  | error e => exact Except.noConfusion h
  | ok a => exact ⟨a, rfl, h⟩

/-- applyCap for one caption leaves every column outside that caption
and its four generated names unchanged. -/
theorem applyCap_preserves_col (df : DF) (c : String) (e : DF) (m : String)
    (h : applyCap df c = .ok e) (hm : m ∉ (c :: genNames c)) :
    e.columnVals m = df.columnVals m := by
  simp only [genNames, List.mem_cons, not_or] at hm
  obtain ⟨hmc, hm1, hm2, hm3, hm4, -⟩ := hm
  unfold applyCap at h
  cases hc : df.columnVals c with
  | none =>
    rw [hc] at h
    have h' : Except.ok df = Except.ok e := h
    injection h' with h2
    rw [← h2]
  | some col =>
    rw [hc] at h
    obtain ⟨vals, hmm, h⟩ := except_bind_ok _ _ _ h
    by_cases hlen : vals.length = 0
    · rw [if_pos hlen] at h
      exact Except.noConfusion h
    · rw [if_neg hlen] at h
      injection h with h2
      rw [← h2]
      rw [columnVals_dropCol_other _ _ _ (beq_eq_false_iff_ne.mpr (fun hh => hmc hh.symm)),
        columnVals_setCol_other _ _ _ _ (beq_eq_false_iff_ne.mpr (fun hh => hm4 hh.symm)),
        columnVals_setCol_other _ _ _ _ (beq_eq_false_iff_ne.mpr (fun hh => hm3 hh.symm)),
        columnVals_setCol_other _ _ _ _ (beq_eq_false_iff_ne.mpr (fun hh => hm2 hh.symm)),
        columnVals_setCol_other _ _ _ _ (beq_eq_false_iff_ne.mpr (fun hh => hm1 hh.symm))]

/-- Inversion of a successful applyCap when the caption is present: all
cells split, and the four generated columns hold the split values while
the composite column is gone. -/
theorem applyCap_ok_capState (df : DF) (cap : String) (col : List PyVal) (e : DF)
    (hcol : df.columnVals cap = some col)
    (h : applyCap df cap = .ok e)
    (hnd : ((cap :: genNames cap) : List String).Nodup) :
    ∃ vals, col.mapM split_cell = .ok vals ∧ capState e cap vals := by
  rw [List.nodup_cons] at hnd
  obtain ⟨hcapnot, -⟩ := hnd
  simp only [genNames, List.mem_cons, not_or] at hcapnot
  obtain ⟨hca, hcb, hcc, hcd, -⟩ := hcapnot
  have hba : ((slugOf cap ++ "_perf") == (slugOf cap ++ "_comp")) = false :=
    append_suffix_beq_false _ _ _ (by decide)
  have hta : ((slugOf cap ++ "_total") == (slugOf cap ++ "_comp")) = false :=
    append_suffix_beq_false _ _ _ (by decide)
  have hpa : ((slugOf cap ++ "_place") == (slugOf cap ++ "_comp")) = false :=
    append_suffix_beq_false _ _ _ (by decide)
  have htb : ((slugOf cap ++ "_total") == (slugOf cap ++ "_perf")) = false :=
    append_suffix_beq_false _ _ _ (by decide)
  have hpb : ((slugOf cap ++ "_place") == (slugOf cap ++ "_perf")) = false :=
    append_suffix_beq_false _ _ _ (by decide)
  have hpt : ((slugOf cap ++ "_place") == (slugOf cap ++ "_total")) = false :=
    append_suffix_beq_false _ _ _ (by decide)
  have hcapa : (cap == slugOf cap ++ "_comp") = false := beq_eq_false_iff_ne.mpr hca
  have hcapb : (cap == slugOf cap ++ "_perf") = false := beq_eq_false_iff_ne.mpr hcb
  have hcapt : (cap == slugOf cap ++ "_total") = false := beq_eq_false_iff_ne.mpr hcc
  have hcapp : (cap == slugOf cap ++ "_place") = false := beq_eq_false_iff_ne.mpr hcd
  unfold applyCap at h
  rw [hcol] at h
  obtain ⟨vals, hmm, h⟩ := except_bind_ok _ _ _ h
  by_cases hlen : vals.length = 0
  · rw [if_pos hlen] at h
    exact Except.noConfusion h
  · rw [if_neg hlen] at h
    injection h with h2
    refine ⟨vals, hmm, ?_, ?_, ?_, ?_, ?_⟩ <;> rw [← h2]
    · rw [columnVals_dropCol_other _ _ _ hcapa,
        columnVals_setCol_other _ _ _ _ hpa,
        columnVals_setCol_other _ _ _ _ hta,
        columnVals_setCol_other _ _ _ _ hba,
        columnVals_setCol_self]
    · rw [columnVals_dropCol_other _ _ _ hcapb,
        columnVals_setCol_other _ _ _ _ hpb,
        columnVals_setCol_other _ _ _ _ htb,
        columnVals_setCol_self]
    · rw [columnVals_dropCol_other _ _ _ hcapt,
        columnVals_setCol_other _ _ _ _ hpt,
        columnVals_setCol_self]
    · rw [columnVals_dropCol_other _ _ _ hcapp,
        columnVals_setCol_self]
    · rw [columnVals_dropCol_self]

/-- applyCap for a different caption preserves a previously established
caption state. -/
theorem applyCap_preserves_capState (df : DF) (c cap : String) (e : DF)
    (vals : List (Rat × Rat × Rat × Int))
    (h : applyCap df c = .ok e)
    (hfar : ∀ m ∈ (cap :: genNames cap), m ∉ (c :: genNames c))
    (hst : capState df cap vals) :
    capState e cap vals := by
  obtain ⟨h1, h2, h3, h4, h5⟩ := hst
  refine ⟨?_, ?_, ?_, ?_, ?_⟩
  · rw [applyCap_preserves_col df c e _ h (hfar _ (by simp [genNames]))]
    exact h1
  · rw [applyCap_preserves_col df c e _ h (hfar _ (by simp [genNames]))]
    exact h2
  · rw [applyCap_preserves_col df c e _ h (hfar _ (by simp [genNames]))]
    exact h3
  · rw [applyCap_preserves_col df c e _ h (hfar _ (by simp [genNames]))]
    exact h4
  · rw [applyCap_preserves_col df c e _ h (hfar _ (by simp))]
    exact h5

/-- The Season upsert never touches the shows table. -/
theorem getOrCreateSeason_shows (st : DBState) (y : Int) :
    (getOrCreateSeason st y).2.shows = st.shows := by
  unfold getOrCreateSeason
  split <;> rfl

/-- The HostLocation upsert never touches the shows table. -/
theorem getOrCreateHost_shows (st : DBState) (n : String) (c s : Option String) :
    (getOrCreateHost st n c s).2.shows = st.shows := by
  unfold getOrCreateHost
  split <;> rfl

/-- Inversion of a successful Show upsert: some persisted show now
carries the given identity and week, and every show with a different
pdf_name is untouched. -/
theorem upsertShow_ok :
    ∀ (st : DBState) (fn nm : String) (d : PyDate) (sid hid wk : Nat) (st' : DBState),
      upsertShow st fn nm d sid hid wk = (st', none) →
      (∃ sh : ShowRec, sh ∈ st'.shows ∧ sh.pdf_name = fn ∧ sh.date = d ∧
        sh.season_id = sid ∧ sh.week = wk) ∧
      (∀ s : ShowRec, s ∈ st.shows → s.pdf_name ≠ fn → s ∈ st'.shows) := by
  intro st fn nm d sid hid wk st' h
  unfold upsertShow at h
  by_cases h2 : 2 ≤ (st.shows.filter (fun s => s.pdf_name == fn)).length
  · rw [if_pos h2] at h
    simp at h
  · rw [if_neg h2] at h
    by_cases h1 : (st.shows.filter (fun s => s.pdf_name == fn)).length = 1
    · rw [if_pos h1] at h
      injection h with hA hB
      subst hA
      obtain ⟨t, ht⟩ := List.length_eq_one.mp h1
      have htm : t ∈ st.shows.filter (fun s => s.pdf_name == fn) := by
        rw [ht]; exact List.mem_singleton_self t
      rw [List.mem_filter] at htm
      obtain ⟨htmem, htp⟩ := htm
      refine ⟨⟨{ t with name := nm, date := d, season_id := sid, host_id := hid, week := wk },
        ?_, ?_, rfl, rfl, rfl⟩, ?_⟩
      · have hmap := List.mem_map_of_mem (fun t' =>
          if t'.pdf_name == fn then
            { t' with name := nm, date := d, season_id := sid, host_id := hid, week := wk }
          else t') htmem
        simpa [htp] using hmap
      · simpa using htp
      · intro s hs hneq
        have hmap := List.mem_map_of_mem (fun t' =>
          if t'.pdf_name == fn then
            { t' with name := nm, date := d, season_id := sid, host_id := hid, week := wk }
          else t') hs
        simpa [hneq] using hmap
    · rw [if_neg h1] at h
      injection h with hA hB
      subst hA
      refine ⟨⟨⟨st.nextId, sid, nm, d, hid, wk, fn⟩, by simp, rfl, rfl, rfl, rfl⟩, ?_⟩
      intro s hs hneq
      simp [hs]

/-! ## Claim theorems -/

/-- C1 (code_bug evidence): ingestion can never reach the
replace-performances step, let alone be idempotent through it.  Every
call of ingest_pdf errors; on the concrete well-formed document the
error is the AttributeError raised by the show.performances access of
parser.py line 286 (models.Show declares no performances relationship);
and ingesting the document twice commits nothing and logs two failures
instead of replacing the Show's Performances. -/
theorem c1_reingestion_never_replaces_performances :
    (∀ (s : Sess) (d : Doc), (ingest_pdf s d).2.isSome = true) ∧
    (ingest_pdf {} docArc).2
      = some (.attributeError "Show object has no attribute performances") ∧
    mainLoop {} [] [docArc, docArc]
      = ({}, [errLine docArc.fn (.attributeError "Show object has no attribute performances"),
              errLine docArc.fn (.attributeError "Show object has no attribute performances")]) :=
  ⟨ingest_pdf_always_errors, rfl, rfl⟩

/-- C2 (code_bug evidence): CLASS_RE defines exactly one capturing
group, so the m.group(2) call of parse_class_block (parser.py line 45)
raises IndexError on both of the spec's example inputs instead of
returning the documented pairs. -/
theorem c2_parse_class_block_index_error :
    countCapturingGroups CLASS_RE_pattern.data = 1 ∧
    parse_class_block "Percussion Scholastic A – Block 2"
      = .error (.indexError "no such group") ∧
    parse_class_block "Percussion Independent World"
      = .error (.indexError "no such group") :=
  ⟨rfl, rfl, rfl⟩

/-- C3 counterexample: the generated column for the caption Effect -
Music is effect__music_comp (spaces become underscores and hyphens are
deleted), not the effectmusic_comp that the claim's slug rule (spaces
and hyphens removed) prescribes. -/
theorem c3_counterexample_slug :
    slugOf "Effect - Music" = "effect__music" ∧
    slugClaim "Effect - Music" = "effectmusic" ∧
    split_caption_cells dfEffectMusic
      = .ok ⟨[("Group", [.vstr "A"]),
              ("effect__music_comp", [.vfloat (mkRat 25 2)]),
              ("effect__music_perf", [.vfloat (mkRat 11 1)]),
              ("effect__music_total", [.vfloat (mkRat 47 2)]),
              ("effect__music_place", [.vint 3])]⟩ ∧
    ("effect__music_comp" : String) ≠ "effectmusic_comp" :=
  ⟨rfl, rfl, rfl, by decide⟩

/-- C5 counterexample: a row whose Group cell is the empty string is
retained by the validator (the notna mask of parser.py line 307 checks
presence, not non-emptiness), while the claim's rule discards it. -/
theorem c5_counterexample_empty_group :
    rowKept rowEmptyGroup = true ∧
    filterRows [rowEmptyGroup] = [rowEmptyGroup] ∧
    rowKeptClaim rowEmptyGroup = false :=
  ⟨rfl, rfl, rfl⟩

/-- C6 counterexample: on a padded header grid clean_table names column
1 Home City (with a space), not HomeCity, and merges headers by
trimming the concatenation, yielding A-space-space-B where the claim's
trim-each-cell rule yields A-space-B. -/
theorem c6_counterexample_rename_and_trim :
    clean_table gridPad
      = .ok ⟨["Group", "Home City", "A  B"], [[some "x", some "y", some "z"]]⟩ ∧
    mergedNamesClaim [some "Team", some "City", some "A "] [some "", some "", some "B"]
      = ["Team ", "City ", "A B"] ∧
    ("Home City" : String) ≠ "HomeCity" ∧
    ("A  B" : String) ≠ "A B" :=
  ⟨rfl, rfl, by decide, by decide⟩

/-- C9 counterexample: a filename with seven tokens and a weekday token
still raises — int() fails on the non-numeric first token — so the two
conditions of the claim do not exhaust the error cases. -/
theorem c9_counterexample_bad_date :
    (filenameParts "aa_bb_cc_host_saturday_city_ca.pdf").length = 7 ∧
    (filenameParts "aa_bb_cc_host_saturday_city_ca.pdf").any isWeekdayToken = true ∧
    parse_filename "aa_bb_cc_host_saturday_city_ca.pdf"
      = .error (.valueError "invalid literal for int() with base 10: aa") :=
  ⟨rfl, rfl, rfl⟩

/-- C10 counterexample: a five-line cell whose first line is not numeric
makes split_cell raise ValueError, so having more than four lines does
not by itself rule out an error. -/
theorem c10_counterexample_bad_first_line :
    (splitOnChar '\n' "x\n1\n2\n3\n4").length = 5 ∧
    split_cell (.vstr "x\n1\n2\n3\n4")
      = .error (.valueError "could not convert string to float: x") :=
  ⟨rfl, rfl⟩

/-- C10 (amended): the cell splitter's outcome — value or error — is
determined by the first four newline-delimited lines of the cell text,
and a cell whose first four lines parse as three decimals and an integer
splits without error no matter how many further lines follow. -/
theorem c10_first_four_lines_determine_split :
    (∀ s t : String,
      (splitOnChar '\n' s).take 4 = (splitOnChar '\n' t).take 4 →
      split_cell (.vstr s) = split_cell (.vstr t)) ∧
    (∀ (s l0 l1 l2 l3 : String) (rest : List String) (a b c : Rat) (d : Int),
      splitOnChar '\n' s = l0 :: l1 :: l2 :: l3 :: rest →
      pyFloat l0 = .ok a → pyFloat l1 = .ok b → pyFloat l2 = .ok c → pyInt l3 = .ok d →
      split_cell (.vstr s) = .ok (a, b, c, d)) := by
  constructor
  · intro s t h
    have hg : ∀ i, i < 4 → getLine (splitOnChar '\n' s) i = getLine (splitOnChar '\n' t) i := by
      intro i hi
      unfold getLine
      rw [show (splitOnChar '\n' s).get? i = ((splitOnChar '\n' s).take 4).get? i from
            (List.get?_take hi).symm,
          show (splitOnChar '\n' t).get? i = ((splitOnChar '\n' t).take 4).get? i from
            (List.get?_take hi).symm, h]
    simp only [split_cell, cellSplitText, bind, Except.bind,
      hg 0 (by norm_num), hg 1 (by norm_num), hg 2 (by norm_num), hg 3 (by norm_num)]
  · intro s l0 l1 l2 l3 rest a b c d hs h0 h1 h2 h3
    simp [split_cell, cellSplitText, bind, Except.bind, hs, getLine, h0, h1, h2, h3]

/-- C10 witness: two five-line cells agreeing on their first four lines
split identically, to the values of the spec's example cell. -/
theorem c10_witness :
    split_cell (.vstr "12.5\n11.0\n23.5\n3\nextra")
      = split_cell (.vstr "12.5\n11.0\n23.5\n3\nother") ∧
    split_cell (.vstr "12.5\n11.0\n23.5\n3\nextra")
      = .ok (mkRat 25 2, mkRat 11 1, mkRat 47 2, 3) :=
  ⟨c10_first_four_lines_determine_split.1 _ _ rfl,
   c10_first_four_lines_determine_split.2 "12.5\n11.0\n23.5\n3\nextra"
     "12.5" "11.0" "23.5" "3" ["extra"] (mkRat 25 2) (mkRat 11 1) (mkRat 47 2) 3
     rfl rfl rfl rfl rfl⟩

/-- Membership characterization of the validator's conjunction. -/
theorem rowKept_iff (r : PerfRow) :
    rowKept r = true ↔
      (r.group ≠ PyVal.vnone ∧ r.home_city ≠ PyVal.vnone ∧
       (∀ s, r.group = PyVal.vstr s → pyLower (pyStrip s) ≠ "group") ∧
       (∃ x : Rat, r.subtotal_total = PyVal.vfloat x ∧ 0 < x)) := by
  obtain ⟨g, hc, st⟩ := r
  cases g <;> cases hc <;> cases st <;>
    simp [rowKept, notna]

/-- C5 (amended): a row survives the validator exactly when its Group
and Home City cells are present (not NaN — the empty string counts as
present), the trimmed lowercased Group text is not the literal group,
and its subtotal total is a float strictly greater than zero; failing
rows are simply absent from the result, no error arising. -/
theorem c5_row_filter_characterization :
    ∀ (rows : List PerfRow) (r : PerfRow),
      r ∈ filterRows rows ↔
        (r ∈ rows ∧ r.group ≠ PyVal.vnone ∧ r.home_city ≠ PyVal.vnone ∧
         (∀ s, r.group = PyVal.vstr s → pyLower (pyStrip s) ≠ "group") ∧
         (∃ x : Rat, r.subtotal_total = PyVal.vfloat x ∧ 0 < x)) := by
  intro rows r
  unfold filterRows
  rw [List.mem_filter, rowKept_iff]

/-- C9 (amended): parse_filename returns normally exactly when the
filename has at least six underscore tokens, its first three tokens
parse as a valid calendar date, and some token is a recognized weekday;
it raises in every other case. -/
theorem c9_parse_filename_error_characterization :
    ∀ fn : String,
      isOkB (parse_filename fn) =
        (decide (6 ≤ (filenameParts fn).length)
          && isOkB (dateFromTokens (filenameParts fn))
          && (filenameParts fn).any isWeekdayToken) := by
  intro fn
  unfold parse_filename
  by_cases hlen : (filenameParts fn).length < 6
  · simp [hlen, isOkB, Nat.not_le_of_lt hlen]
  · have h6 : 6 ≤ (filenameParts fn).length := Nat.le_of_not_lt hlen
    simp only [if_neg hlen]
    cases hd : dateFromTokens (filenameParts fn) with
    | error e => simp [isOkB, h6]
    | ok dt =>
      cases hw : (filenameParts fn).findIdx? isWeekdayToken with
      | none =>
        have : (filenameParts fn).any isWeekdayToken = false := by
          rw [List.any_eq_false]
          intro x hx
          simp [(List.findIdx?_eq_none_iff.mp hw) x hx]
        simp [isOkB, h6, this]
      | some wdIdx =>
        have : (filenameParts fn).any isWeekdayToken = true := by
          rw [List.any_eq_true]
          obtain ⟨hlt, hp, -⟩ := List.findIdx?_eq_some_iff_getElem.mp hw
          exact ⟨(filenameParts fn)[wdIdx], List.getElem_mem hlt, hp⟩
        simp [isOkB, h6, this]

/-- C5 witness: the characterization applied to a one-row list. -/
theorem c5_witness :
    rowEmptyGroup ∈ filterRows [rowEmptyGroup] ↔
      (rowEmptyGroup ∈ [rowEmptyGroup] ∧ rowEmptyGroup.group ≠ PyVal.vnone ∧
       rowEmptyGroup.home_city ≠ PyVal.vnone ∧
       (∀ s, rowEmptyGroup.group = PyVal.vstr s → pyLower (pyStrip s) ≠ "group") ∧
       (∃ x : Rat, rowEmptyGroup.subtotal_total = PyVal.vfloat x ∧ 0 < x)) :=
  c5_row_filter_characterization [rowEmptyGroup] rowEmptyGroup

/-- C9 witness: the error characterization applied to the spec's
example filename, where all three conditions hold. -/
theorem c9_witness :
    isOkB (parse_filename "2024_09_14_arcadia_hs_saturday_arcadia_ca.pdf") =
      (decide (6 ≤ (filenameParts "2024_09_14_arcadia_hs_saturday_arcadia_ca.pdf").length)
        && isOkB (dateFromTokens (filenameParts "2024_09_14_arcadia_hs_saturday_arcadia_ca.pdf"))
        && (filenameParts "2024_09_14_arcadia_hs_saturday_arcadia_ca.pdf").any isWeekdayToken) :=
  c9_parse_filename_error_characterization "2024_09_14_arcadia_hs_saturday_arcadia_ca.pdf"

/-- C4: every successful parse_filename result has the claimed shape —
the show date parsed from the first three tokens, a host id whose last
underscore token is hs (kept when present, appended when absent), the
title-cased weekday found at the first weekday index, the title-cased
city joined from the tokens between the weekday and the last token, the
upper-cased final token as state, and the display name synthesized from
the host id (underscores to spaces, title case) and the weekday. -/
theorem c4_parse_filename_shape :
    ∀ (fn : String) (r : FilenameInfo), parse_filename fn = .ok r →
      dateFromTokens (filenameParts fn) = .ok r.show_date ∧
      (∃ hp : List String, hp ≠ [] ∧ pyLower (hp.getLastD "") = "hs" ∧
        r.hostid = joinWith "_" hp) ∧
      (∃ wdIdx : Nat, (filenameParts fn).findIdx? isWeekdayToken = some wdIdx ∧
        r.weekday = pyTitle ((filenameParts fn).getD wdIdx "") ∧
        r.city = joinWith " " ((((filenameParts fn).drop (wdIdx + 1)).dropLast).map pyTitle)) ∧
      r.state = pyUpper ((filenameParts fn).getLastD "") ∧
      r.show_name = pyTitle (replaceChar '_' " " r.hostid) ++ " " ++ r.weekday := by
  intro fn r h
  by_cases hlen : (filenameParts fn).length < 6
  · simp [parse_filename, hlen] at h
  · simp only [parse_filename, if_neg hlen] at h
    cases hd : dateFromTokens (filenameParts fn) with
    | error e => rw [hd] at h; exact absurd h (by simp)
    | ok dt =>
      rw [hd] at h
      cases hw : (filenameParts fn).findIdx? isWeekdayToken with
      | none => rw [hw] at h; exact absurd h (by simp)
      | some wdIdx =>
        rw [hw] at h
        injection h with h2
        subst h2
        by_cases hc : (((filenameParts fn).drop 3).take (wdIdx - 3)) ≠ [] ∧
            pyLower ((((filenameParts fn).drop 3).take (wdIdx - 3)).getLastD "") = "hs"
        · exact ⟨rfl, ⟨_, hc.1, hc.2, if_pos hc⟩, ⟨wdIdx, rfl, rfl, rfl⟩, rfl, rfl⟩
        · exact ⟨rfl,
            ⟨((filenameParts fn).drop 3).take (wdIdx - 3) ++ ["hs"], by simp,
              by rw [List.getLastD_concat]; rfl, if_neg hc⟩,
            ⟨wdIdx, rfl, rfl, rfl⟩, rfl, rfl⟩

/-- C4 witness: the shape theorem applied to the spec's example
filename, whose parse is the claimed record. -/
theorem c4_witness :
    dateFromTokens (filenameParts "2024_09_14_arcadia_hs_saturday_arcadia_ca.pdf")
      = .ok ⟨2024, 9, 14⟩ ∧
    (∃ hp : List String, hp ≠ [] ∧ pyLower (hp.getLastD "") = "hs" ∧
      "arcadia_hs" = joinWith "_" hp) ∧
    (∃ wdIdx : Nat,
      (filenameParts "2024_09_14_arcadia_hs_saturday_arcadia_ca.pdf").findIdx? isWeekdayToken
        = some wdIdx ∧
      "Saturday" = pyTitle
        ((filenameParts "2024_09_14_arcadia_hs_saturday_arcadia_ca.pdf").getD wdIdx "") ∧
      "Arcadia" = joinWith " "
        ((((filenameParts "2024_09_14_arcadia_hs_saturday_arcadia_ca.pdf").drop
          (wdIdx + 1)).dropLast).map pyTitle)) ∧
    "CA" = pyUpper
      ((filenameParts "2024_09_14_arcadia_hs_saturday_arcadia_ca.pdf").getLastD "") ∧
    "Arcadia Hs Saturday" = pyTitle (replaceChar '_' " " "arcadia_hs") ++ " " ++ "Saturday" :=
  c4_parse_filename_shape "2024_09_14_arcadia_hs_saturday_arcadia_ca.pdf"
    ⟨⟨2024, 9, 14⟩, "arcadia_hs", "Saturday", "Arcadia", "CA", "Arcadia Hs Saturday"⟩ rfl

/-- C7: when the season/host/week/show phase of an ingestion succeeds,
the ingested Show's stored week is one plus the number of previously
persisted Shows of the same Season dated strictly earlier, and every
persisted Show with a different source file is left entirely unchanged
(its week included). -/
theorem c7_week_computation :
    ∀ (st : DBState) (fn : String) (ident : Identity) (st' : DBState),
      showPhase st fn ident = (st', none) →
      (∃ sh : ShowRec, sh ∈ st'.shows ∧ sh.pdf_name = fn ∧ sh.date = ident.show_date ∧
        sh.week = 1 + (st.shows.filter (fun s =>
          s.season_id == sh.season_id && PyDate.ltb s.date sh.date)).length) ∧
      (∀ s : ShowRec, s ∈ st.shows → s.pdf_name ≠ fn → s ∈ st'.shows) := by
  intro st fn ident st' h
  unfold showPhase at h
  have hshows : (getOrCreateHost (getOrCreateSeason st ident.show_date.year).2
      (rsplitFirst ident.show_name) ident.city ident.state).2.shows = st.shows := by
    rw [getOrCreateHost_shows, getOrCreateSeason_shows]
  obtain ⟨⟨sh, hmem, hpdf, hdate, hsid, hweek⟩, hframe⟩ :=
    upsertShow_ok _ _ _ _ _ _ _ _ h
  refine ⟨⟨sh, hmem, hpdf, hdate, ?_⟩, ?_⟩
  · rw [hweek]
    unfold computeWeek
    rw [hshows, hsid, hdate]
    exact Nat.add_comm _ 1
  · intro s hs hneq
    exact hframe s (by rw [hshows]; exact hs) hneq

/-- C7 witness: the theorem applied to a database holding an
earlier-dated show of the same season; the new show gets week 2 and the
old show survives unchanged. -/
theorem c7_witness :
    (∃ sh : ShowRec,
      sh ∈ (⟨[⟨1, 2024⟩],
             [⟨3, "Arcadia Hs", some "Arcadia", some "CA"⟩],
             [⟨2, 1, "Old Show", ⟨2024, 9, 7⟩, 9, 1, "old.pdf"⟩,
              ⟨4, 1, "Arcadia Hs Saturday", ⟨2024, 9, 14⟩, 3, 2, "new.pdf"⟩],
             5⟩ : DBState).shows ∧
      sh.pdf_name = "new.pdf" ∧ sh.date = ⟨2024, 9, 14⟩ ∧
      sh.week = 1 + (((⟨[⟨1, 2024⟩], [],
          [⟨2, 1, "Old Show", ⟨2024, 9, 7⟩, 9, 1, "old.pdf"⟩], 3⟩ : DBState)).shows.filter
          (fun s => s.season_id == sh.season_id && PyDate.ltb s.date sh.date)).length) ∧
    (∀ s : ShowRec,
      s ∈ ((⟨[⟨1, 2024⟩], [],
        [⟨2, 1, "Old Show", ⟨2024, 9, 7⟩, 9, 1, "old.pdf"⟩], 3⟩ : DBState)).shows →
      s.pdf_name ≠ "new.pdf" →
      s ∈ (⟨[⟨1, 2024⟩],
            [⟨3, "Arcadia Hs", some "Arcadia", some "CA"⟩],
            [⟨2, 1, "Old Show", ⟨2024, 9, 7⟩, 9, 1, "old.pdf"⟩,
             ⟨4, 1, "Arcadia Hs Saturday", ⟨2024, 9, 14⟩, 3, 2, "new.pdf"⟩],
            5⟩ : DBState).shows) :=
  c7_week_computation
    ⟨[⟨1, 2024⟩], [], [⟨2, 1, "Old Show", ⟨2024, 9, 7⟩, 9, 1, "old.pdf"⟩], 3⟩
    "new.pdf" ⟨"Arcadia Hs Saturday", ⟨2024, 9, 14⟩, some "Arcadia", some "CA"⟩
    ⟨[⟨1, 2024⟩],
     [⟨3, "Arcadia Hs", some "Arcadia", some "CA"⟩],
     [⟨2, 1, "Old Show", ⟨2024, 9, 7⟩, 9, 1, "old.pdf"⟩,
      ⟨4, 1, "Arcadia Hs Saturday", ⟨2024, 9, 14⟩, 3, 2, "new.pdf"⟩],
     5⟩ rfl

/-- C8: a failed ingestion, once rolled back by the driver, leaves the
committed state exactly as it was before the attempt — ingest_pdf only
commits as its final step, which an error always precedes — and the
driver logs the error line for that file and continues the batch with
the remaining files. -/
theorem c8_rollback_and_continue :
    ∀ (s : Sess) (log : List String) (d : Doc) (ds : List Doc) (e : PyErr),
      (ingest_pdf s d).2 = some e →
      ((ingest_pdf s d).1.rollback).committed = s.committed ∧
      mainLoop s log (d :: ds)
        = mainLoop ((ingest_pdf s d).1.rollback) (log ++ [errLine d.fn e]) ds := by
  intro s log d ds e he
  have hc : (ingest_pdf s d).1.committed = s.committed := by
    unfold ingest_pdf
    split
    · rfl
    · split
      · rfl
      · split <;> rfl
  refine ⟨hc, ?_⟩
  have hstep : mainLoop s log (d :: ds)
      = (match ingest_pdf s d with
        | (s', none) => mainLoop s' log ds
        | (s', some e') => mainLoop s'.rollback (log ++ [errLine d.fn e']) ds) := rfl
  rw [hstep, show ingest_pdf s d = ((ingest_pdf s d).1, some e) from Prod.ext rfl he]

/-- C8 witness: the theorem applied to the batch holding the single
concrete document, whose ingestion fails with the AttributeError. -/
theorem c8_witness :
    ((ingest_pdf {} docArc).1.rollback).committed = ({} : Sess).committed ∧
    mainLoop {} [] [docArc]
      = mainLoop ((ingest_pdf {} docArc).1.rollback)
          ([] ++ [errLine docArc.fn (.attributeError "Show object has no attribute performances")])
          [] :=
  c8_rollback_and_continue {} [] docArc []
    (.attributeError "Show object has no attribute performances") rfl

/-- C6 (amended): on a grid with two header rows of equal length, at
least two columns wide, clean_table succeeds; the data rows are the grid
minus the two header rows; columns 0 and 1 are renamed Group and Home
City by position; and every further column carries its merged name (the
two header cells concatenated with a space and the result trimmed,
BLANK when empty) suffixed, from the second occurrence on, with the
count of earlier occurrences of the same name. -/
theorem c6_clean_table_shape :
    ∀ (r0 r1 : List (Option String)) (rest : RawGrid),
      2 ≤ r0.length → r1.length = r0.length →
      ∃ ct : CTable, clean_table (r0 :: r1 :: rest) = .ok ct ∧
        ct.rows = rest ∧
        ct.cols.length = r0.length ∧
        ct.cols.getD 0 "" = "Group" ∧
        ct.cols.getD 1 "" = "Home City" ∧
        ∀ i, 2 ≤ i → i < r0.length →
          ct.cols.getD i "" = specColName (mergedNames r0 r1) i := by
  intro r0 r1 rest h2 hlen
  have hm : (mergedNames r0 r1).length = r0.length := by
    simp [mergedNames, hlen]
  have hdlen : (dedupeNames (mergedNames r0 r1)).length = r0.length := by
    rw [dedupeNames_eq, dedupeRec_length]
    exact hm
  cases hdd : dedupeNames (mergedNames r0 r1) with
  | nil =>
    rw [hdd] at hdlen
    simp at hdlen
    omega
  | cons c0 tl =>
    cases tl with
    | nil =>
      rw [hdd] at hdlen
      simp at hdlen
      omega
    | cons c1 cs =>
      rw [hdd] at hdlen
      refine ⟨⟨"Group" :: "Home City" :: cs, rest⟩, ?_, rfl, ?_, rfl, rfl, ?_⟩
      · show (match dedupeNames (mergedNames r0 r1) with
          | _ :: _ :: cs => Except.ok (⟨"Group" :: "Home City" :: cs, rest⟩ : CTable)
          | _ => (Except.error (PyErr.indexError "list assignment index out of range") :
              Except PyErr CTable))
          = Except.ok (⟨"Group" :: "Home City" :: cs, rest⟩ : CTable)
        rw [hdd]
      · simpa using hdlen
      · intro i hi2 hilt
        have hcols : ("Group" :: "Home City" :: cs).getD i "" = (c0 :: c1 :: cs).getD i "" := by
          cases i with
          | zero => omega
          | succ j =>
            cases j with
            | zero => omega
            | succ k => simp [List.getD_cons_succ]
        rw [hcols, ← hdd, dedupeNames_getD _ i (by rw [hm]; exact hilt)]

/-- C6 witness: the shape theorem applied to a four-column grid with a
duplicated merged header, showing the positional renames, the kept data
row and the first-seen suffixing X Y, X Y_1. -/
theorem c6_witness :
    ∃ ct : CTable,
      clean_table [[some "A", some "B", some "X", some "X"],
                   [some "", some "", some "Y", some "Y"],
                   [some "g", some "c", some "1", some "2"]] = .ok ct ∧
      ct.rows = [[some "g", some "c", some "1", some "2"]] ∧
      ct.cols.length = ([some "A", some "B", some "X", some "X"] : List (Option String)).length ∧
      ct.cols.getD 0 "" = "Group" ∧
      ct.cols.getD 1 "" = "Home City" ∧
      ∀ i, 2 ≤ i → i < ([some "A", some "B", some "X", some "X"] : List (Option String)).length →
        ct.cols.getD i ""
          = specColName (mergedNames [some "A", some "B", some "X", some "X"]
              [some "", some "", some "Y", some "Y"]) i :=
  c6_clean_table_shape [some "A", some "B", some "X", some "X"]
    [some "", some "", some "Y", some "Y"]
    [[some "g", some "c", some "1", some "2"]] (by decide) (by decide)

/-- C3 (amended): when split_caption_cells returns normally, every
recognized composite column that was present has been split cell by
cell — first three lines as decimals, fourth as an integer — into the
four columns slug_comp, slug_perf, slug_total, slug_place (slug being
the caption lower-cased with spaces turned to underscores and hyphens
deleted), and the composite column itself is gone. -/
theorem c3_splits_each_present_caption :
    ∀ (df df' : DF) (cap : String) (col : List PyVal),
      split_caption_cells df = .ok df' →
      cap ∈ captionCols →
      df.columnVals cap = some col →
      ∃ vals, col.mapM split_cell = .ok vals ∧ capState df' cap vals := by
  intro df df' cap col h hcap hcol
  unfold split_caption_cells captionCols at h
  simp only [List.foldlM] at h
  obtain ⟨e1, h1, h⟩ := except_bind_ok _ _ _ h
  obtain ⟨e2, h2, h⟩ := except_bind_ok _ _ _ h
  obtain ⟨e3, h3, h⟩ := except_bind_ok _ _ _ h
  obtain ⟨e4, h4, h⟩ := except_bind_ok _ _ _ h
  obtain ⟨e5, h5, h⟩ := except_bind_ok _ _ _ h
  have hdf' : e5 = df' := by
    have h' : Except.ok e5 = Except.ok df' := h
    injection h'
  subst hdf'
  simp only [captionCols, List.mem_cons, List.not_mem_nil, or_false] at hcap
  rcases hcap with rfl | rfl | rfl | rfl | rfl
  · obtain ⟨vals, hvals, hstate⟩ := applyCap_ok_capState df _ col e1 hcol h1 (by decide)
    exact ⟨vals, hvals,
      applyCap_preserves_capState e4 _ _ e5 vals h5 (by decide)
        (applyCap_preserves_capState e3 _ _ e4 vals h4 (by decide)
          (applyCap_preserves_capState e2 _ _ e3 vals h3 (by decide)
            (applyCap_preserves_capState e1 _ _ e2 vals h2 (by decide) hstate)))⟩
  · have hc1 : e1.columnVals "Effect - Visual" = some col := by
      rw [applyCap_preserves_col df _ e1 _ h1 (by decide)]
      exact hcol
    obtain ⟨vals, hvals, hstate⟩ := applyCap_ok_capState e1 _ col e2 hc1 h2 (by decide)
    exact ⟨vals, hvals,
      applyCap_preserves_capState e4 _ _ e5 vals h5 (by decide)
        (applyCap_preserves_capState e3 _ _ e4 vals h4 (by decide)
          (applyCap_preserves_capState e2 _ _ e3 vals h3 (by decide) hstate))⟩
  · have hc1 : e1.columnVals "Music" = some col := by
      rw [applyCap_preserves_col df _ e1 _ h1 (by decide)]
      exact hcol
    have hc2 : e2.columnVals "Music" = some col := by
      rw [applyCap_preserves_col e1 _ e2 _ h2 (by decide)]
      exact hc1
    obtain ⟨vals, hvals, hstate⟩ := applyCap_ok_capState e2 _ col e3 hc2 h3 (by decide)
    exact ⟨vals, hvals,
      applyCap_preserves_capState e4 _ _ e5 vals h5 (by decide)
        (applyCap_preserves_capState e3 _ _ e4 vals h4 (by decide) hstate)⟩
  · have hc1 : e1.columnVals "Visual" = some col := by
      rw [applyCap_preserves_col df _ e1 _ h1 (by decide)]
      exact hcol
    have hc2 : e2.columnVals "Visual" = some col := by
      rw [applyCap_preserves_col e1 _ e2 _ h2 (by decide)]
      exact hc1
    have hc3 : e3.columnVals "Visual" = some col := by
      rw [applyCap_preserves_col e2 _ e3 _ h3 (by decide)]
      exact hc2
    obtain ⟨vals, hvals, hstate⟩ := applyCap_ok_capState e3 _ col e4 hc3 h4 (by decide)
    exact ⟨vals, hvals,
      applyCap_preserves_capState e4 _ _ e5 vals h5 (by decide) hstate⟩
  · have hc1 : e1.columnVals "SubTotal" = some col := by
      rw [applyCap_preserves_col df _ e1 _ h1 (by decide)]
      exact hcol
    have hc2 : e2.columnVals "SubTotal" = some col := by
      rw [applyCap_preserves_col e1 _ e2 _ h2 (by decide)]
      exact hc1
    have hc3 : e3.columnVals "SubTotal" = some col := by
      rw [applyCap_preserves_col e2 _ e3 _ h3 (by decide)]
      exact hc2
    have hc4 : e4.columnVals "SubTotal" = some col := by
      rw [applyCap_preserves_col e3 _ e4 _ h4 (by decide)]
      exact hc3
    obtain ⟨vals, hvals, hstate⟩ := applyCap_ok_capState e4 _ col e5 hc4 h5 (by decide)
    exact ⟨vals, hvals, hstate⟩

/-- C3 witness: the theorem applied to the concrete dataframe holding
the spec's example cell in its SubTotal column; the derived columns
carry 12.5, 11.0, 23.5 and 3. -/
theorem c3_witness :
    ∃ vals, ([PyVal.vstr "12.5\n11.0\n23.5\n3"] : List PyVal).mapM split_cell = .ok vals ∧
      capState ⟨[("Group", [.vstr "A"]),
        ("subtotal_comp", [.vfloat (mkRat 25 2)]),
        ("subtotal_perf", [.vfloat (mkRat 11 1)]),
        ("subtotal_total", [.vfloat (mkRat 47 2)]),
        ("subtotal_place", [.vint 3])]⟩ "SubTotal" vals :=
  c3_splits_each_present_caption dfSubTotal
    ⟨[("Group", [.vstr "A"]),
      ("subtotal_comp", [.vfloat (mkRat 25 2)]),
      ("subtotal_perf", [.vfloat (mkRat 11 1)]),
      ("subtotal_total", [.vfloat (mkRat 47 2)]),
      ("subtotal_place", [.vint 3])]⟩
    "SubTotal" [PyVal.vstr "12.5\n11.0\n23.5\n3"] rfl (by decide) rfl

end ScoresDB
